import Mathlib

/-!
Verification of the Remote Run Orchestrator core of the flowreg-session-ui
repository. The Python functions of src/pyflowreg_session_gui/remote_runner.py
and state.py are shallowly embedded as executable Lean definitions: strings
are Lean strings, subprocess execution is an explicit oracle passed as a
function argument, and exceptions become Except values. Every definition is
translated directly from the source; the theorems below settle the frozen
claims about that source.
-/

set_option maxRecDepth 4000

namespace FlowregSession

/-! ## String utilities mirroring the Python primitives used by the source -/

/-- Characters stripped by the Python str.strip() default (ASCII whitespace). -/
def isPyWS (c : Char) : Bool :=
  c == ' ' || c == '\t' || c == '\n' || c == '\r' || c == '\x0b' || c == '\x0c'

/-- Python str.strip(): remove leading and trailing whitespace. -/
def pythonStrip (s : String) : String :=
  ⟨((s.data.dropWhile isPyWS).reverse.dropWhile isPyWS).reverse⟩

/-- Python "\n".join(xs). -/
def joinLines : List String → String
  | [] => ""
  | [x] => x
  | x :: y :: xs => x ++ "\n" ++ joinLines (y :: xs)

/-- Python " ".join(xs). -/
def joinSpace : List String → String
  | [] => ""
  | [x] => x
  | x :: y :: xs => x ++ " " ++ joinSpace (y :: xs)

/-- Split a string at newline characters; mirrors str.split("\n") and, for the
line-oriented parsers below (which strip every line and drop empty ones),
str.splitlines(). -/
def splitLinesAux : List Char → List Char → List String
  | acc, [] => [⟨acc.reverse⟩]
  | acc, c :: t =>
    if c = '\n' then ⟨acc.reverse⟩ :: splitLinesAux [] t
    else splitLinesAux (c :: acc) t

def splitLines (s : String) : List String := splitLinesAux [] s.data

/-- Python s.startswith(p). -/
def startsWith (s p : String) : Bool := List.isPrefixOf p.data s.data

/-- Membership of a pattern as a contiguous run inside a list. -/
def hasChunk (pat : List Char) : List Char → Bool
  | [] => pat.isEmpty
  | c :: t => List.isPrefixOf pat (c :: t) || hasChunk pat t

/-- Python (pat in s) substring containment. -/
def strContains (s pat : String) : Bool := hasChunk pat.data s.data

/-- Python (a or b) for strings: the first operand if truthy (nonempty). -/
def pyOr (a b : String) : String := if a = "" then b else a

/-- Contiguous-run containment at the level of line lists. -/
def isChunkOf (a b : List String) : Prop := ∃ s t, b = s ++ a ++ t

/-- Characters regarded as safe by shlex.quote: ASCII word characters plus
at-sign, percent, plus, equals, colon, comma, dot, slash, hyphen. -/
def shlexSafe (c : Char) : Bool :=
  c.isAlphanum || c == '_' || c == '@' || c == '%' || c == '+' || c == '=' ||
    c == ':' || c == ',' || c == '.' || c == '/' || c == '-'

/-- Python shlex.quote. -/
def shlexQuote (s : String) : String :=
  if s = "" then "''"
  else if s.data.all shlexSafe then s
  else
    "'" ++
      ⟨s.data.foldr
        (fun c acc =>
          if c = '\'' then '\'' :: '"' :: '\'' :: '"' :: '\'' :: acc else c :: acc)
        []⟩ ++ "'"

/-! ## Data model (state.py) -/

structure PathMapping where
  local_prefix : String
  remote_prefix : String
deriving DecidableEq, Repr

structure SbatchDefaults where
  partition : String := ""
  time : String := ""
  mem : String := ""
  cpus : Nat := 1
  gpus : Nat := 0
deriving DecidableEq, Repr

structure RemoteProfile where
  host_alias : String := "deigo"
  remote_base_dir : String := "~/pyflowreg_runs"
  env_activation_cmd : String := ""
  sbatch : SbatchDefaults := {}
deriving DecidableEq, Repr

structure RemoteRunState where
  run_name : Option String := none
  remote_run_dir : Option String := none
  local_bundle_dir : Option String := none
  config_filename : String := "session_config.yaml"
  num_tasks : Nat := 0
  stage1_job_id : Option String := none
  stage23_job_id : Option String := none
  upload_warnings : List String := []
deriving DecidableEq, Repr

/-- Python truthiness of an optional job id (None and "" are falsy). -/
def optId : Option String → List String
  | some i => if i = "" then [] else [i]
  | none => []

/-- RemoteRunState.job_ids from state.py. -/
def RemoteRunState.job_ids (st : RemoteRunState) : List String :=
  optId st.stage1_job_id ++ optId st.stage23_job_id

/-- The dataclass-default run state created at application start. -/
def freshRunState : RemoteRunState := {}

structure RemoteDirectoryListing where
  path : String
  children : List String
deriving DecidableEq, Repr

/-! ## map_path (remote_runner.py lines 27-53) -/

/-- Characters stripped from local prefixes: rstrip of slash and backslash. -/
def isSep (c : Char) : Bool := c == '/' || c == '\\'

/-- Python s.rstrip of the two path separators. -/
def stripTrailSeps (s : String) : String := ⟨(s.data.reverse.dropWhile isSep).reverse⟩

/-- Python s.lstrip of the two path separators. -/
def stripLeadSeps (s : String) : String := ⟨s.data.dropWhile isSep⟩

/-- Python s.rstrip of a single forward slash. -/
def stripTrailSlash (s : String) : String :=
  ⟨(s.data.reverse.dropWhile (fun c => c == '/')).reverse⟩

/-- True when the stripped local prefix matches the raw path: exactly, or
followed immediately by a path separator. -/
def sepMatch (raw lp : String) : Bool :=
  raw == lp || startsWith raw (lp ++ "/") || startsWith raw (lp ++ "\\")

/-- A mapping participates in selection when its stripped local prefix is
nonempty and matches the input. -/
def goodFor (raw : String) (m : PathMapping) : Bool :=
  decide (stripTrailSeps m.local_prefix ≠ "") && sepMatch raw (stripTrailSeps m.local_prefix)

/-- One step of the selection loop in map_path. -/
def pickStep (raw : String) (acc : Option PathMapping × String) (m : PathMapping) :
    Option PathMapping × String :=
  let lp := stripTrailSeps m.local_prefix
  if lp = "" then acc
  else if sepMatch raw lp then
    (if acc.2.length < lp.length then (some m, lp) else acc)
  else acc

/-- The selection loop of map_path: the best mapping and its stripped prefix. -/
def pickBest (raw : String) (ms : List PathMapping) : Option PathMapping × String :=
  ms.foldl (pickStep raw) (none, "")

/-- The output built by map_path once a best mapping has been selected. -/
def mappedResult (raw : String) (m : PathMapping) : String :=
  let lp := stripTrailSeps m.local_prefix
  let suffix := stripLeadSeps ⟨raw.data.drop lp.length⟩
  let rp := stripTrailSlash m.remote_prefix
  if suffix = "" then rp
  else rp ++ "/" ++ ⟨suffix.data.map fun c => if c = '\\' then '/' else c⟩

/-- map_path from remote_runner.py. -/
def map_path (path_value : String) (mappings : List PathMapping) : String :=
  match pickBest path_value mappings with
  | (none, _) => path_value
  | (some m, _) => mappedResult path_value m

/-! ## Batch script generation (remote_runner.py lines 56-132) -/

/-- The header lines shared by both generated sbatch scripts. -/
def common_sbatch_lines (profile : RemoteProfile) : List String :=
  ["#!/bin/bash", "#SBATCH -o slurm-%j.out"]
    ++ (if profile.sbatch.partition = "" then []
        else ["#SBATCH --partition=" ++ profile.sbatch.partition])
    ++ (if profile.sbatch.time = "" then []
        else ["#SBATCH --time=" ++ profile.sbatch.time])
    ++ (if profile.sbatch.mem = "" then []
        else ["#SBATCH --mem=" ++ profile.sbatch.mem])
    ++ (if profile.sbatch.cpus = 0 then []
        else ["#SBATCH --cpus-per-task=" ++ toString profile.sbatch.cpus])
    ++ (if profile.sbatch.gpus = 0 then []
        else ["#SBATCH --gres=gpu:" ++ toString profile.sbatch.gpus])

/-- The embedded interpreter block of the Stage-1 script, below the optional
environment-activation line. -/
def stage1PyLines (config_filename : String) : List String :=
  ["python - <<'PY'",
   "import os",
   "from pyflowreg.session.config import SessionConfig",
   "from pyflowreg.session.stage1_compensate import discover_input_files, run_stage1",
   "config = SessionConfig.from_file('" ++ config_filename ++ "')",
   "task_index = int(os.environ['SLURM_ARRAY_TASK_ID']) - 1",
   "n_files = len(list(discover_input_files(config)))",
   "if task_index >= n_files:",
   "    print(f'Skipping task {task_index}: only {n_files} files discovered.')",
   "else:",
   "    run_stage1(config, task_index=task_index)",
   "PY",
   ""]

/-- All lines of the Stage-1 array script. -/
def stage1_lines (config_filename : String) (num_tasks : Nat) (profile : RemoteProfile) :
    List String :=
  (common_sbatch_lines profile ++ ["#SBATCH --array=1-" ++ toString num_tasks])
    ++ (["", "set -euo pipefail"]
        ++ (if profile.env_activation_cmd = "" then [] else [profile.env_activation_cmd])
        ++ stage1PyLines config_filename)

/-- generate_stage1_sbatch_script from remote_runner.py. -/
def generate_stage1_sbatch_script (config_filename : String) (num_tasks : Nat)
    (profile : RemoteProfile) : String :=
  joinLines (stage1_lines config_filename num_tasks profile)

/-- The embedded interpreter block of the Stage-2/3 script. -/
def stage23PyLines (config_filename : String) : List String :=
  ["python - <<'PY'",
   "from pyflowreg.session.config import SessionConfig",
   "from pyflowreg.session.stage2_between_avgs import run_stage2",
   "from pyflowreg.session.stage3_valid_mask import run_stage3",
   "config = SessionConfig.from_file('" ++ config_filename ++ "')",
   "middle_idx, avg, displacements = run_stage2(config)",
   "del avg",
   "run_stage3(config, middle_idx, displacements)",
   "PY",
   ""]

/-- All lines of the Stage-2/3 dependent script. -/
def stage23_lines (config_filename : String) (stage1_jobid : String)
    (profile : RemoteProfile) : List String :=
  (common_sbatch_lines profile ++ ["#SBATCH --dependency=afterok:" ++ stage1_jobid])
    ++ (["", "set -euo pipefail"]
        ++ (if profile.env_activation_cmd = "" then [] else [profile.env_activation_cmd])
        ++ stage23PyLines config_filename)

/-- generate_stage23_sbatch_script from remote_runner.py. -/
def generate_stage23_sbatch_script (config_filename : String) (stage1_jobid : String)
    (profile : RemoteProfile) : String :=
  joinLines (stage23_lines config_filename stage1_jobid profile)

/-! ## Transport (remote_runner.py lines 139-194) -/

def SSH_COMMON_ARGS : List String := ["-o", "BatchMode=yes"]

/-- RemoteRunner._ssh_argv: batch-mode ssh wrapping the remote command in a
login shell. -/
def ssh_argv (host_alias remote_command : String) : List String :=
  ["ssh"] ++ SSH_COMMON_ARGS ++ [host_alias, "sh -lc " ++ shlexQuote remote_command]

/-- RemoteRunner._extract_ssh_host: the second-to-last token of a generated
ssh argument vector, with the fallbacks of the source. -/
def extract_ssh_host (argv : List String) : String :=
  let n := argv.length
  if 3 ≤ n ∧ startsWith (argv.getD (n - 2) "") "-" = false then argv.getD (n - 2) ""
  else if 2 ≤ n then argv.getD 1 "" else "<host>"

/-- First hint block of the SSH-authentication failure message. -/
def sshHintBase (host_alias : String) : List String :=
  ["SSH interactive prompts are disabled in the GUI (BatchMode=yes).",
   "",
   "Run one of these once in a terminal, then retry from the GUI:",
   "1) Accept key + test login: ssh -o StrictHostKeyChecking=accept-new " ++ host_alias
     ++ " \"echo connected\""]

/-- The stale-key-clearing hint line. -/
def sshKeygenHintLine (host_alias : String) : String :=
  "2) If key changed, clear stale key: ssh-keygen -R " ++ host_alias

/-- The retry hint line following the stale-key-clearing hint. -/
def sshRetryHintLine (host_alias : String) : String :=
  "3) Retry login test: ssh -o StrictHostKeyChecking=accept-new " ++ host_alias
    ++ " \"echo connected\""

/-- The hint lines synthesized for exit status 255 of an ssh invocation: the
stale-key lines are appended only when the captured error text reports a
failed host key verification. -/
def ssh_hint_lines (host_alias error_output : String) : List String :=
  sshHintBase host_alias
    ++ (if strContains error_output "Host key verification failed" = true then
          [sshKeygenHintLine host_alias, sshRetryHintLine host_alias]
        else [])

/-- Python (exc.stderr or exc.stdout or "").strip(). -/
def runErrOut (stderr stdout : String) : String := pythonStrip (pyOr stderr stdout)

/-- The message of the RuntimeError raised by RemoteRunner._run when the
spawned command exits nonzero (remote_runner.py lines 147-177). -/
def runFailureMessage (argv : List String) (returncode : Int) (stderr stdout : String) :
    String :=
  let error_output := runErrOut stderr stdout
  let command := joinSpace argv
  if argv.head? = some "ssh" ∧ returncode = 255 then
    let host_alias := extract_ssh_host argv
    let ssh_hint := joinLines (ssh_hint_lines host_alias error_output)
    let combined :=
      pythonStrip (joinLines (List.filter (fun p => p ≠ "") [error_output, ssh_hint]))
    "Command failed: " ++ command ++ "\n" ++ combined
  else
    "Command failed: " ++ command ++ "\n" ++ error_output

/-! ## Job submission (remote_runner.py lines 354-400, 454-459) -/

/-- Longest run of leading decimal digits. -/
def takeDigits : List Char → List Char
  | [] => []
  | c :: t => if c.isDigit then c :: takeDigits t else []

/-- The literal of the job-id pattern. -/
def jobIdLit : List Char := "Submitted batch job ".data

/-- Leftmost match of the regular expression of _parse_job_id: the literal
followed by at least one digit; returns the maximal digit run. -/
def findJobId : List Char → Option String
  | [] => none
  | c :: t =>
    if List.isPrefixOf jobIdLit (c :: t) then
      let ds := takeDigits ((c :: t).drop jobIdLit.length)
      if ds.isEmpty then findJobId t else some ⟨ds⟩
    else findJobId t

/-- RemoteRunner._parse_job_id as a total function: none where the source
raises its RuntimeError. -/
def parse_job_id (output : String) : Option String := findJobId output.data

/-- The first remote command issued by submit. -/
def submitRemote1 (dir : String) : String :=
  "cd " ++ shlexQuote dir ++ " && sbatch stage1_array.sbatch"

/-- The second remote command issued by submit: the dependent submission. -/
def submitRemote2 (dir stage1_jobid : String) : String :=
  "cd " ++ shlexQuote dir ++ " && sbatch --dependency=afterok:" ++ stage1_jobid
    ++ " stage23.sbatch"

/-- The rsync argument vector that stages the Stage-2/3 script. -/
def stage23RsyncArgv (profile : RemoteProfile) (bundle dir : String) : List String :=
  ["rsync", "-az", bundle ++ "/stage23.sbatch",
   profile.host_alias ++ ":" ++ dir ++ "/stage23.sbatch"]

inductive SubmitError where
  | notStaged
  | missingBundle
  | unparseable (output : String)
deriving DecidableEq, Repr

/-- RemoteRunner.submit. The subprocess boundary is the oracle exec mapping an
argument vector to its captured standard output; the first component of the
result is the ordered list of argument vectors actually executed, the second
the outcome: the two job ids and the updated run state, or the error the
source raises. -/
def submit (exec : List String → String) (profile : RemoteProfile)
    (run_state : RemoteRunState) :
    List (List String) × Except SubmitError (String × String × RemoteRunState) :=
  match run_state.remote_run_dir with
  | none => ([], Except.error SubmitError.notStaged)
  | some dir =>
    if dir = "" then ([], Except.error SubmitError.notStaged)
    else
      let cmd1 := ssh_argv profile.host_alias (submitRemote1 dir)
      let out1 := exec cmd1
      match parse_job_id out1 with
      | none => ([cmd1], Except.error (SubmitError.unparseable out1))
      | some stage1_jobid =>
        match run_state.local_bundle_dir with
        | none => ([cmd1], Except.error SubmitError.missingBundle)
        | some bundle =>
          let rsyncCmd := stage23RsyncArgv profile bundle dir
          let cmd2 := ssh_argv profile.host_alias (submitRemote2 dir stage1_jobid)
          let out2 := exec cmd2
          match parse_job_id out2 with
          | none => ([cmd1, rsyncCmd, cmd2], Except.error (SubmitError.unparseable out2))
          | some stage23_jobid =>
            ([cmd1, rsyncCmd, cmd2],
             Except.ok (stage1_jobid, stage23_jobid,
               { run_state with
                   stage1_job_id := some stage1_jobid
                   stage23_job_id := some stage23_jobid }))

/-! ## Staging (remote_runner.py lines 294-352) -/

def FALLBACK_ARRAY_TASKS : Nat := 2048

/-- The warning recorded when the fallback array size is used. -/
def fallbackWarning : String :=
  "Using fallback Stage1 array size " ++ toString FALLBACK_ARRAY_TASKS ++ ". "
    ++ "Tasks beyond discovered files will auto-skip on the cluster."

/-- The task-count and warning accumulation of prepare_and_upload: the local
discovery outcome is either the number of discovered files or the message of
the exception it raised. -/
def discoveryPlan (discovery : Except String Nat) : Nat × List String :=
  let first : Nat × List String :=
    match discovery with
    | Except.ok n => (n, [])
    | Except.error e => (0, ["Local input discovery failed: " ++ e])
  if first.1 < 1 then
    let warned :=
      if first.2 = [] then first.2 ++ ["Local input discovery found 0 files."] else first.2
    (FALLBACK_ARRAY_TASKS, warned ++ [fallbackWarning])
  else first

/-- RemoteRunner.prepare_and_upload restricted to its state construction: the
timestamp suffix of the run name, the temporary bundle directory and the
discovery outcome are inputs; the serialization and transfer side effects do
not influence the returned RemoteRunState. -/
def prepare_and_upload (profile : RemoteProfile) (stamp bundle_dir : String)
    (discovery : Except String Nat) : RemoteRunState :=
  let run_name := "run_" ++ stamp
  let plan := discoveryPlan discovery
  { run_name := some run_name
    remote_run_dir := some (stripTrailSlash profile.remote_base_dir ++ "/" ++ run_name)
    local_bundle_dir := some bundle_dir
    config_filename := "session_config.yaml"
    num_tasks := plan.1
    stage1_job_id := none
    stage23_job_id := none
    upload_warnings := plan.2 }

/-! ## Directory listings (remote_runner.py lines 217-268) -/

/-- One step of the line loop of _parse_directory_listing, acting on the pair
of the base path seen so far and the accumulated children. -/
def listingStep (acc : String × List String) (line : String) : String × List String :=
  let text := pythonStrip line
  if text = "" then acc
  else if startsWith text "__BASE__:" then (⟨text.data.drop 9⟩, acc.2)
  else if startsWith text "__WARN_NOT_DIR__:" then acc
  else (acc.1, acc.2 ++ [text])

/-- The base path that survives the loop: the payload of the last base
sentinel line, or the empty string when there is none. -/
def listingBase (lines : List String) : String :=
  (lines.foldl listingStep ("", [])).1

/-- The child lines collected by the loop, in input order with duplicates. -/
def listingKids : List String → List String
  | [] => []
  | l :: t =>
    let text := pythonStrip l
    if text = "" then listingKids t
    else if startsWith text "__BASE__:" then listingKids t
    else if startsWith text "__WARN_NOT_DIR__:" then listingKids t
    else text :: listingKids t

/-- Lexicographic comparison of character lists by code point, the order
Python sorted uses on strings. -/
def lexLe : List Char → List Char → Bool
  | [], _ => true
  | _ :: _, [] => false
  | a :: as, b :: bs =>
    if a.toNat < b.toNat then true
    else if b.toNat < a.toNat then false
    else lexLe as bs

/-- String comparison by code points. -/
def strLeb (a b : String) : Bool := lexLe a.data b.data

/-- The ordering relation used for sorting remote listings. -/
def strLe (a b : String) : Prop := strLeb a b = true

instance : DecidableRel strLe := fun a b => by
  unfold strLe; infer_instance

/-- Python sorted(set(xs)) for strings. -/
def sortDedup (xs : List String) : List String :=
  List.insertionSort strLe xs.dedup

/-- RemoteRunner._parse_directory_listing as a total function: error where the
source raises its RuntimeError. -/
def parse_directory_listing (output : String) : Except String RemoteDirectoryListing :=
  let folded := (splitLines output).foldl listingStep ("", [])
  if folded.1 = "" then
    Except.error ("Could not parse remote directory listing output:\n" ++ output)
  else
    Except.ok { path := folded.1, children := sortDedup folded.2 }

/-- First-seen-order deduplication: the specification shape of the client-side
loop of list_remote_directories. -/
def dedupFS : List String → List String
  | [] => []
  | x :: t => x :: dedupFS (t.filter fun y => y ≠ x)
termination_by l => l.length
decreasing_by
  simpa using Nat.lt_succ_of_le (List.length_filter_le _ t)

/-- The client-side loop of list_remote_directories. -/
def shallowParse (output : String) : List String :=
  (splitLines output).foldl
    (fun dirs line =>
      let value := pythonStrip line
      if value = "" ∨ value ∈ dirs then dirs else dirs ++ [value])
    []

/-- The start directory resolved by list_remote_directories. -/
def shallowRequested (profile : RemoteProfile) (start_dir : Option String) : String :=
  pyOr (pythonStrip (pyOr (start_dir.getD "") (pyOr profile.remote_base_dir "~"))) "~"

/-- The remote command built by list_remote_directories; the depth and limit
are already clamped to at least one. -/
def shallowRemoteCommand (requested : String) (safe_depth safe_limit : Nat) : String :=
  "base=" ++ shlexQuote requested ++ "; "
    ++ "case \"$base\" in \"~\") base=\"$HOME\" ;; \"~/\"*) base=\"$HOME/$\x7bbase#??\x7d\" ;; esac; "
    ++ "mkdir -p \"$base\" >/dev/null 2>&1 || true; "
    ++ "printf \"%s\\\\n\" \"$base\"; "
    ++ "find \"$base\" -mindepth 1 -maxdepth " ++ toString safe_depth
    ++ " -type d 2>/dev/null "
    ++ "| sort | head -n " ++ toString safe_limit

/-- RemoteRunner.list_remote_directories: the remote command it issues and the
list it returns for the given remote output. The limit is applied inside the
remote command only; the client-side loop deduplicates whatever comes back. -/
def list_remote_directories (profile : RemoteProfile) (start_dir : Option String)
    (max_depth limit : Nat) (output : String) : String × List String :=
  (shallowRemoteCommand (shallowRequested profile start_dir)
      (max 1 max_depth) (max 1 limit),
   shallowParse output)

/-! ## Reachable run states (state.py lines 31-48, remote_runner.py 294-400) -/

/-- Run states reachable through the orchestrator: the fresh dataclass
default, the state returned by prepare_and_upload, and the state recorded by
a successful submit. -/
inductive ReachableState : RemoteRunState → Prop where
  | fresh : ReachableState freshRunState
  | uploaded (profile : RemoteProfile) (stamp bundle_dir : String)
      (discovery : Except String Nat) :
      ReachableState (prepare_and_upload profile stamp bundle_dir discovery)
  | submitted (exec : List String → String) (profile : RemoteProfile)
      (st : RemoteRunState) (log : List (List String)) (id1 id2 : String)
      (st' : RemoteRunState) (h : ReachableState st)
      (hs : submit exec profile st = (log, Except.ok (id1, id2, st'))) :
      ReachableState st'

/-! ## Generic lemmas about the string primitives -/

theorem isPrefixOf_exists {p l : List Char} :
    List.isPrefixOf p l = true ↔ ∃ t, l = p ++ t := by
  induction p generalizing l with
  | nil => simp [List.isPrefixOf]
  | cons a as ih =>
    cases l with
    | nil => simp [List.isPrefixOf]
    | cons b bs =>
      simp only [List.isPrefixOf, Bool.and_eq_true, beq_iff_eq, ih, List.cons_append,
        List.cons.injEq]
      constructor
      · rintro ⟨rfl, t, rfl⟩; exact ⟨t, rfl, rfl⟩
      · rintro ⟨t, rfl, rfl⟩; exact ⟨rfl, t, rfl⟩

theorem hasChunk_iff {pat l : List Char} :
    hasChunk pat l = true ↔ ∃ u v, l = u ++ pat ++ v := by
  induction l with
  | nil =>
    simp only [hasChunk, List.isEmpty_iff]
    constructor
    · rintro rfl; exact ⟨[], [], rfl⟩
    · rintro ⟨u, v, huv⟩
      rcases List.append_eq_nil.mp (List.append_eq_nil.mp huv.symm).1 with ⟨-, h⟩
      exact h
  | cons c t ih =>
    simp only [hasChunk, Bool.or_eq_true, isPrefixOf_exists, ih]
    constructor
    · rintro (⟨v, hv⟩ | ⟨u, v, huv⟩)
      · exact ⟨[], v, by simpa using hv⟩
      · exact ⟨c :: u, v, by simp [huv]⟩
    · rintro ⟨u, v, huv⟩
      cases u with
      | nil => exact Or.inl ⟨v, by simpa using huv⟩
      | cons x xs =>
        right
        rw [List.cons_append, List.cons_append] at huv
        exact ⟨xs, v, by simpa using (by simpa using huv : c = x ∧ t = xs ++ (pat ++ v)).2⟩

theorem strContains_of_eq {s pre pat post : String} (h : s = pre ++ pat ++ post) :
    strContains s pat = true := by
  subst h
  exact hasChunk_iff.mpr ⟨pre.data, post.data, by simp [String.data_append]⟩

theorem strContains_append_right {t pat : String} (s : String)
    (h : strContains t pat = true) : strContains (s ++ t) pat = true := by
  rcases hasChunk_iff.mp h with ⟨u, v, huv⟩
  exact hasChunk_iff.mpr ⟨s.data ++ u, v, by simp [String.data_append, huv]⟩

theorem strContains_append_left {s pat : String} (t : String)
    (h : strContains s pat = true) : strContains (s ++ t) pat = true := by
  rcases hasChunk_iff.mp h with ⟨u, v, huv⟩
  exact hasChunk_iff.mpr ⟨u, v ++ t.data, by simp [String.data_append, huv]⟩

theorem startsWith_exists {s p : String} :
    startsWith s p = true ↔ ∃ t, s.data = p.data ++ t := by
  unfold startsWith; exact isPrefixOf_exists

/-- A string whose first and last characters are not whitespace is unchanged
by pythonStrip. -/
theorem pythonStrip_eq_self {s : String}
    (h1 : ∀ c, s.data.head? = some c → isPyWS c = false)
    (h2 : ∀ c, s.data.getLast? = some c → isPyWS c = false) :
    pythonStrip s = s := by
  apply String.ext
  show ((s.data.dropWhile isPyWS).reverse.dropWhile isPyWS).reverse = s.data
  have hd : s.data.dropWhile isPyWS = s.data := by
    cases hsd : s.data with
    | nil => simp
    | cons c t =>
      have := h1 c (by simp [hsd])
      simp [List.dropWhile_cons, this]
  rw [hd]
  have hr : s.data.reverse.dropWhile isPyWS = s.data.reverse := by
    cases hsr : s.data.reverse with
    | nil => simp
    | cons c t =>
      have hc : s.data.getLast? = some c := by
        rw [← List.head?_reverse, hsr]; rfl
      have := h2 c hc
      simp [List.dropWhile_cons, this]
  rw [hr, List.reverse_reverse]

/-- The head of a dropWhile result refutes the predicate. -/
theorem head?_dropWhile_false {p : Char → Bool} {l : List Char} {c : Char}
    (h : (l.dropWhile p).head? = some c) : p c = false := by
  induction l with
  | nil => simp at h
  | cons a t ih =>
    rw [List.dropWhile_cons] at h
    by_cases hp : p a
    · rw [if_pos hp] at h; exact ih h
    · rw [if_neg hp] at h
      simp only [List.head?_cons, Option.some.injEq] at h
      subst h; simpa using hp

/-- The head character of a nonempty pythonStrip result is not whitespace. -/
theorem pythonStrip_head_not_ws {s : String} {c : Char}
    (h : (pythonStrip s).data.head? = some c) : isPyWS c = false := by
  have hform : (pythonStrip s).data
      = ((s.data.dropWhile isPyWS).reverse.dropWhile isPyWS).reverse := rfl
  rw [hform, List.head?_reverse] at h
  set d1 := s.data.dropWhile isPyWS with hd1
  set d2 := d1.reverse.dropWhile isPyWS with hd2
  have hsplit : d1.reverse.takeWhile isPyWS ++ d2 = d1.reverse :=
    List.takeWhile_append_dropWhile ..
  cases hd2e : d2 with
  | nil => rw [hd2e] at h; simp at h
  | cons x xs =>
    have hlast : d2.getLast? = d1.reverse.getLast? := by
      rw [← hsplit, List.getLast?_append, hd2e]
      simp [List.getLast?_cons]
    rw [hlast, List.getLast?_reverse] at h
    exact head?_dropWhile_false h

/-- The last character of a nonempty pythonStrip result is not whitespace. -/
theorem pythonStrip_getLast_not_ws {s : String} {c : Char}
    (h : (pythonStrip s).data.getLast? = some c) : isPyWS c = false := by
  have hform : (pythonStrip s).data
      = ((s.data.dropWhile isPyWS).reverse.dropWhile isPyWS).reverse := rfl
  rw [hform, List.getLast?_reverse] at h
  exact head?_dropWhile_false h

theorem pyOr_eq_self {a : String} (h : a ≠ "") (b : String) : pyOr a b = a := by
  simp [pyOr, h]

/-! ## Lemmas about the selection loop of map_path -/

theorem pickStep_not_good {raw : String} {m : PathMapping}
    (h : goodFor raw m = false) (acc : Option PathMapping × String) :
    pickStep raw acc m = acc := by
  unfold pickStep
  unfold goodFor at h
  rcases Bool.and_eq_false_iff.mp h with h' | h'
  · have : stripTrailSeps m.local_prefix = "" := by
      by_contra hne
      simp [hne] at h'
    simp [this]
  · by_cases hlp : stripTrailSeps m.local_prefix = ""
    · simp [hlp]
    · simp [hlp, h']

theorem pickStep_good {raw : String} {m : PathMapping}
    (h : goodFor raw m = true) (acc : Option PathMapping × String) :
    pickStep raw acc m =
      if acc.2.length < (stripTrailSeps m.local_prefix).length then
        (some m, stripTrailSeps m.local_prefix)
      else acc := by
  unfold pickStep
  have h' : stripTrailSeps m.local_prefix ≠ ""
      ∧ sepMatch raw (stripTrailSeps m.local_prefix) = true := by
    simpa [goodFor] using h
  simp [h'.1, h'.2]

theorem pickFold_no_match {raw : String} {ms : List PathMapping}
    (h : ∀ m ∈ ms, goodFor raw m = false) (acc : Option PathMapping × String) :
    ms.foldl (pickStep raw) acc = acc := by
  induction ms generalizing acc with
  | nil => rfl
  | cons m t ih =>
    rw [List.foldl_cons, pickStep_not_good (h m (List.mem_cons_self m t)) acc]
    exact ih (fun m' hm' => h m' (List.mem_cons_of_mem m hm')) acc

theorem pickFold_cases {raw : String} (ms : List PathMapping)
    (acc : Option PathMapping × String) :
    ms.foldl (pickStep raw) acc = acc
      ∨ ∃ m ∈ ms, ms.foldl (pickStep raw) acc
          = (some m, stripTrailSeps m.local_prefix) ∧ goodFor raw m = true := by
  induction ms generalizing acc with
  | nil => exact Or.inl rfl
  | cons m t ih =>
    rw [List.foldl_cons]
    by_cases hg : goodFor raw m = true
    · rw [pickStep_good hg acc]
      by_cases hlen : acc.2.length < (stripTrailSeps m.local_prefix).length
      · rw [if_pos hlen]
        rcases ih (some m, stripTrailSeps m.local_prefix) with h | ⟨m', hm', h, hgm'⟩
        · exact Or.inr ⟨m, List.mem_cons_self m t, h, hg⟩
        · exact Or.inr ⟨m', List.mem_cons_of_mem m hm', h, hgm'⟩
      · rw [if_neg hlen]
        rcases ih acc with h | ⟨m', hm', h, hgm'⟩
        · exact Or.inl h
        · exact Or.inr ⟨m', List.mem_cons_of_mem m hm', h, hgm'⟩
    · rw [pickStep_not_good (Bool.eq_false_iff.mpr hg) acc]
      rcases ih acc with h | ⟨m', hm', h, hgm'⟩
      · exact Or.inl h
      · exact Or.inr ⟨m', List.mem_cons_of_mem m hm', h, hgm'⟩

theorem pickFold_len_mono {raw : String} (ms : List PathMapping)
    (acc : Option PathMapping × String) :
    acc.2.length ≤ (ms.foldl (pickStep raw) acc).2.length := by
  induction ms generalizing acc with
  | nil => exact Nat.le_refl _
  | cons m t ih =>
    rw [List.foldl_cons]
    by_cases hg : goodFor raw m = true
    · rw [pickStep_good hg acc]
      by_cases hlen : acc.2.length < (stripTrailSeps m.local_prefix).length
      · rw [if_pos hlen]
        exact Nat.le_trans (Nat.le_of_lt hlen)
          (ih ((some m, stripTrailSeps m.local_prefix) : Option PathMapping × String))
      · rw [if_neg hlen]; exact ih acc
    · rw [pickStep_not_good (Bool.eq_false_iff.mpr hg) acc]; exact ih acc

theorem pickFold_maximal {raw : String} {ms : List PathMapping}
    {m' : PathMapping} (hm' : m' ∈ ms) (hg : goodFor raw m' = true)
    (acc : Option PathMapping × String) :
    (stripTrailSeps m'.local_prefix).length ≤ (ms.foldl (pickStep raw) acc).2.length := by
  induction ms generalizing acc with
  | nil => cases hm'
  | cons m t ih =>
    rw [List.foldl_cons]
    rcases List.mem_cons.mp hm' with rfl | hmem
    · rw [pickStep_good hg acc]
      by_cases hlen : acc.2.length < (stripTrailSeps m'.local_prefix).length
      · rw [if_pos hlen]
        exact pickFold_len_mono t
          ((some m', stripTrailSeps m'.local_prefix) : Option PathMapping × String)
      · rw [if_neg hlen]
        exact Nat.le_trans (Nat.le_of_not_lt hlen) (pickFold_len_mono t acc)
    · exact ih hmem _

theorem pickFold_some_stays {raw : String} (ms : List PathMapping)
    (acc : Option PathMapping × String) (h : acc.1.isSome = true) :
    (ms.foldl (pickStep raw) acc).1.isSome = true := by
  induction ms generalizing acc with
  | nil => exact h
  | cons m t ih =>
    rw [List.foldl_cons]
    by_cases hg : goodFor raw m = true
    · rw [pickStep_good hg acc]
      by_cases hlen : acc.2.length < (stripTrailSeps m.local_prefix).length
      · rw [if_pos hlen]; exact ih _ rfl
      · rw [if_neg hlen]; exact ih acc h
    · rw [pickStep_not_good (Bool.eq_false_iff.mpr hg) acc]; exact ih acc h

theorem pickFold_none_snd {raw : String} (ms : List PathMapping)
    (acc : Option PathMapping × String) (hwf : acc.1 = none → acc.2 = "")
    (h : (ms.foldl (pickStep raw) acc).1 = none) :
    (ms.foldl (pickStep raw) acc).2 = "" := by
  induction ms generalizing acc with
  | nil => exact hwf h
  | cons m t ih =>
    rw [List.foldl_cons] at h ⊢
    by_cases hg : goodFor raw m = true
    · rw [pickStep_good hg acc] at h ⊢
      by_cases hlen : acc.2.length < (stripTrailSeps m.local_prefix).length
      · rw [if_pos hlen] at h ⊢
        exact ih _ (by simp) h
      · rw [if_neg hlen] at h ⊢; exact ih acc hwf h
    · rw [pickStep_not_good (Bool.eq_false_iff.mpr hg) acc] at h ⊢
      exact ih acc hwf h

theorem pickFold_none_no_match {raw : String} {ms : List PathMapping}
    (h : (ms.foldl (pickStep raw) (none, "")).1 = none) :
    ∀ m ∈ ms, goodFor raw m = false := by
  intro m hm
  cases hg : goodFor raw m with
  | false => rfl
  | true =>
    exfalso
    have hmax := pickFold_maximal hm hg ((none, "") : Option PathMapping × String)
    have hsnd := pickFold_none_snd ms ((none, "") : Option PathMapping × String)
      (fun _ => rfl) h
    rw [hsnd] at hmax
    have hne : stripTrailSeps m.local_prefix ≠ "" := by
      have h' : stripTrailSeps m.local_prefix ≠ ""
          ∧ sepMatch raw (stripTrailSeps m.local_prefix) = true := by
        simpa [goodFor] using hg
      exact h'.1
    have hpos : 0 < (stripTrailSeps m.local_prefix).data.length := by
      rcases hsd : (stripTrailSeps m.local_prefix).data with _ | ⟨c, t⟩
      · exact absurd (String.ext hsd) hne
      · simp [hsd]
    have hz : (stripTrailSeps m.local_prefix).data.length ≤ 0 := hmax
    omega

theorem sepMatch_prefix {raw lp : String} (h : sepMatch raw lp = true) :
    ∃ t, raw.data = lp.data ++ t := by
  unfold sepMatch at h
  rcases Bool.or_eq_true_iff.mp h with h' | h'
  · rcases Bool.or_eq_true_iff.mp h' with h'' | h''
    · exact ⟨[], by rw [eq_of_beq h'']; simp⟩
    · rcases startsWith_exists.mp h'' with ⟨t, ht⟩
      exact ⟨'/' :: t, by rw [ht]; simp [String.data_append]⟩
  · rcases startsWith_exists.mp h' with ⟨t, ht⟩
    exact ⟨'\\' :: t, by rw [ht]; simp [String.data_append]⟩

/-- Two matching stripped prefixes of the same raw path with equal lengths are
equal strings. -/
theorem sepMatch_eq_of_length {raw lp1 lp2 : String}
    (h1 : sepMatch raw lp1 = true) (h2 : sepMatch raw lp2 = true)
    (hl : lp1.length = lp2.length) : lp1 = lp2 := by
  rcases sepMatch_prefix h1 with ⟨t1, ht1⟩
  rcases sepMatch_prefix h2 with ⟨t2, ht2⟩
  apply String.ext
  exact (List.append_inj (ht1.symm.trans ht2) hl).1

/-- Claim C2, amended. map_path returns the input unchanged and never fails
when no mapping's stripped local prefix matches; otherwise it selects a
matching mapping of maximal stripped-prefix length and returns its stripped
remote prefix joined by a slash to the separator-stripped remainder with
backslashes normalized (the stripped remote prefix alone on an exact match);
and the result is independent of declaration order provided no two mappings
of the collection share the same stripped local prefix. The proviso is the
amendment: with two mappings of equal stripped local prefix but different
remote prefixes, the source's strict comparison keeps the first, so
declaration order matters (see the counterexample). -/
theorem map_path_spec (pv : String) (ms : List PathMapping) :
    ((∀ m ∈ ms, goodFor pv m = false) → map_path pv ms = pv)
    ∧ (∀ m0 ∈ ms, goodFor pv m0 = true →
        ∃ m ∈ ms, goodFor pv m = true
          ∧ (∀ m' ∈ ms, goodFor pv m' = true →
              (stripTrailSeps m'.local_prefix).length
                ≤ (stripTrailSeps m.local_prefix).length)
          ∧ map_path pv ms = mappedResult pv m)
    ∧ ((∀ m1 ∈ ms, ∀ m2 ∈ ms,
          stripTrailSeps m1.local_prefix = stripTrailSeps m2.local_prefix → m1 = m2) →
        ∀ ms', List.Perm ms ms' → map_path pv ms = map_path pv ms')
    ∧ (∀ m ∈ ms, pv = stripTrailSeps m.local_prefix →
        mappedResult pv m = stripTrailSlash m.remote_prefix) := by
  have key : ∀ (l : List PathMapping), (∃ m0 ∈ l, goodFor pv m0 = true) →
      ∃ m ∈ l, goodFor pv m = true
        ∧ (∀ m' ∈ l, goodFor pv m' = true →
            (stripTrailSeps m'.local_prefix).length
              ≤ (stripTrailSeps m.local_prefix).length)
        ∧ map_path pv l = mappedResult pv m := by
    intro l ⟨m0, hm0, hg0⟩
    rcases @pickFold_cases pv l ((none, "") : Option PathMapping × String)
      with hfold | ⟨m, hm, hfold, hgm⟩
    · exfalso
      have hnone : (l.foldl (pickStep pv) ((none, "") : Option PathMapping × String)).1
          = none := by rw [hfold]
      exact absurd hg0 (by simp [pickFold_none_no_match hnone m0 hm0])
    · refine ⟨m, hm, hgm, ?_, ?_⟩
      · intro m' hm' hg'
        have := pickFold_maximal hm' hg' ((none, "") : Option PathMapping × String)
        rwa [hfold] at this
      · unfold map_path pickBest
        rw [hfold]
  refine ⟨?_, ?_, ?_, ?_⟩
  · intro h
    unfold map_path pickBest
    rw [pickFold_no_match h]
  · intro m0 hm0 hg0
    exact key ms ⟨m0, hm0, hg0⟩
  · intro hD ms' hperm
    by_cases hex : ∃ m0 ∈ ms, goodFor pv m0 = true
    · rcases key ms hex with ⟨m, hm, hgm, hmaxm, hres⟩
      have hex' : ∃ m0 ∈ ms', goodFor pv m0 = true := by
        rcases hex with ⟨m0, hm0, hg0⟩
        exact ⟨m0, hperm.mem_iff.mp hm0, hg0⟩
      rcases key ms' hex' with ⟨m', hm', hgm', hmaxm', hres'⟩
      have hm'ms : m' ∈ ms := hperm.mem_iff.mpr hm'
      have hmms' : m ∈ ms' := hperm.mem_iff.mp hm
      have hlen : (stripTrailSeps m.local_prefix).length
          = (stripTrailSeps m'.local_prefix).length :=
        Nat.le_antisymm (hmaxm' m hmms' hgm) (hmaxm m' hm'ms hgm')
      have hsm : sepMatch pv (stripTrailSeps m.local_prefix) = true := by
        have h' : stripTrailSeps m.local_prefix ≠ ""
            ∧ sepMatch pv (stripTrailSeps m.local_prefix) = true := by
          simpa [goodFor] using hgm
        exact h'.2
      have hsm' : sepMatch pv (stripTrailSeps m'.local_prefix) = true := by
        have h' : stripTrailSeps m'.local_prefix ≠ ""
            ∧ sepMatch pv (stripTrailSeps m'.local_prefix) = true := by
          simpa [goodFor] using hgm'
        exact h'.2
      have hstrip : stripTrailSeps m.local_prefix = stripTrailSeps m'.local_prefix :=
        sepMatch_eq_of_length hsm hsm' hlen
      have : m = m' := hD m hm m' hm'ms hstrip
      rw [hres, hres', this]
    · have hno : ∀ m ∈ ms, goodFor pv m = false := by
        intro m hm
        cases hg : goodFor pv m with
        | false => rfl
        | true => exact absurd ⟨m, hm, hg⟩ hex
      have hno' : ∀ m ∈ ms', goodFor pv m = false := by
        intro m hm
        exact hno m (hperm.mem_iff.mpr hm)
      unfold map_path pickBest
      rw [pickFold_no_match hno, pickFold_no_match hno']
  · intro m _ hexact
    unfold mappedResult
    have hdrop : pv.data.drop (stripTrailSeps m.local_prefix).length = [] := by
      rw [hexact]
      exact List.drop_length _
    have hsuffix : stripLeadSeps ⟨pv.data.drop (stripTrailSeps m.local_prefix).length⟩
        = "" := by
      rw [hdrop]
      rfl
    simp [hsuffix]

/-- Claim C2, counterexample to the original claim: two mappings with the
same local prefix but different remote prefixes give different results for
the two declaration orders, although one list is a reordering of the other. -/
theorem map_path_order_dependence_cex :
    List.Perm [PathMapping.mk "/a" "/x", PathMapping.mk "/a" "/y"]
        [PathMapping.mk "/a" "/y", PathMapping.mk "/a" "/x"]
      ∧ map_path "/a/b" [PathMapping.mk "/a" "/x", PathMapping.mk "/a" "/y"]
          ≠ map_path "/a/b" [PathMapping.mk "/a" "/y", PathMapping.mk "/a" "/x"] := by
  constructor
  · exact List.Perm.swap (PathMapping.mk "/a" "/y") (PathMapping.mk "/a" "/x") []
  · decide

/-- Witness for map_path_spec at a concrete non-matching input. -/
theorem map_path_spec_witness :
    map_path "/other/location/file.tif" [PathMapping.mk "/data" "/remote/data"]
      = "/other/location/file.tif" :=
  (map_path_spec "/other/location/file.tif" [PathMapping.mk "/data" "/remote/data"]).1
    (by decide)

/-- Claim C10: a mapping whose local prefix strips to the empty string never
matches, so a mapping list consisting only of such mappings maps every path
to itself. -/
theorem map_path_empty_prefix_skip (pv : String) (ms : List PathMapping)
    (h : ∀ m ∈ ms, stripTrailSeps m.local_prefix = "") : map_path pv ms = pv := by
  have hno : ∀ m ∈ ms, goodFor pv m = false := by
    intro m hm
    simp [goodFor, h m hm]
  unfold map_path pickBest
  rw [pickFold_no_match hno]

/-- Witness for map_path_empty_prefix_skip: separator-only prefixes. -/
theorem map_path_empty_prefix_skip_witness :
    map_path "/a" [PathMapping.mk "/" "x", PathMapping.mk "\\" "y"] = "/a" :=
  map_path_empty_prefix_skip "/a" [PathMapping.mk "/" "x", PathMapping.mk "\\" "y"]
    (by decide)

/-- Claim C3: for every configuration filename, task count and profile, the
Stage-1 script consists of lines containing the array directive spanning
1..num_tasks, the line computing the zero-based task index by subtracting
one from the scheduler's array-index environment variable, and a guard block
in which an out-of-range index prints a skip message while the per-item
compute stage is invoked only under the else branch. -/
theorem stage1_script_spec (config_filename : String) (num_tasks : Nat)
    (profile : RemoteProfile) :
    generate_stage1_sbatch_script config_filename num_tasks profile
        = joinLines (stage1_lines config_filename num_tasks profile)
      ∧ ("#SBATCH --array=1-" ++ toString num_tasks)
          ∈ stage1_lines config_filename num_tasks profile
      ∧ "task_index = int(os.environ['SLURM_ARRAY_TASK_ID']) - 1"
          ∈ stage1_lines config_filename num_tasks profile
      ∧ isChunkOf
          ["if task_index >= n_files:",
           "    print(f'Skipping task {task_index}: only {n_files} files discovered.')",
           "else:",
           "    run_stage1(config, task_index=task_index)"]
          (stage1_lines config_filename num_tasks profile) := by
  refine ⟨rfl, ?_, ?_, ?_⟩
  · simp [stage1_lines, stage1PyLines]
  · simp [stage1_lines, stage1PyLines]
  · refine ⟨common_sbatch_lines profile ++ ["#SBATCH --array=1-" ++ toString num_tasks]
        ++ ["", "set -euo pipefail"]
        ++ (if profile.env_activation_cmd = "" then [] else [profile.env_activation_cmd])
        ++ ["python - <<'PY'",
            "import os",
            "from pyflowreg.session.config import SessionConfig",
            "from pyflowreg.session.stage1_compensate import discover_input_files, run_stage1",
            "config = SessionConfig.from_file('" ++ config_filename ++ "')",
            "task_index = int(os.environ['SLURM_ARRAY_TASK_ID']) - 1",
            "n_files = len(list(discover_input_files(config)))"],
      ["PY", ""], ?_⟩
    simp [stage1_lines, stage1PyLines]

/-- Claim C6: for every configuration filename, Stage-1 job id and profile,
the Stage-2/3 script consists of lines containing the dependency directive
referencing exactly that job id, and a body block that loads the
configuration, runs the aggregation stage, deletes the averaged image and
only then invokes the validity-mask stage with the middle index and the
displacement fields. -/
theorem stage23_script_spec (config_filename stage1_jobid : String)
    (profile : RemoteProfile) :
    generate_stage23_sbatch_script config_filename stage1_jobid profile
        = joinLines (stage23_lines config_filename stage1_jobid profile)
      ∧ ("#SBATCH --dependency=afterok:" ++ stage1_jobid)
          ∈ stage23_lines config_filename stage1_jobid profile
      ∧ isChunkOf
          ["config = SessionConfig.from_file('" ++ config_filename ++ "')",
           "middle_idx, avg, displacements = run_stage2(config)",
           "del avg",
           "run_stage3(config, middle_idx, displacements)"]
          (stage23_lines config_filename stage1_jobid profile) := by
  refine ⟨rfl, ?_, ?_⟩
  · simp [stage23_lines, stage23PyLines]
  · refine ⟨common_sbatch_lines profile
        ++ ["#SBATCH --dependency=afterok:" ++ stage1_jobid]
        ++ ["", "set -euo pipefail"]
        ++ (if profile.env_activation_cmd = "" then [] else [profile.env_activation_cmd])
        ++ ["python - <<'PY'",
            "from pyflowreg.session.config import SessionConfig",
            "from pyflowreg.session.stage2_between_avgs import run_stage2",
            "from pyflowreg.session.stage3_valid_mask import run_stage3"],
      ["PY", ""], ?_⟩
    simp [stage23_lines, stage23PyLines]

/-- Claim C4: prepare_and_upload never propagates a discovery failure; when
local discovery raises or yields zero items it records a human-readable
warning and uses the fixed fallback array size 2048, so every returned run
state has at least one task. -/
theorem prepare_and_upload_discovery_fallback (profile : RemoteProfile)
    (stamp bundle_dir : String) (discovery : Except String Nat) :
    1 ≤ (prepare_and_upload profile stamp bundle_dir discovery).num_tasks
      ∧ FALLBACK_ARRAY_TASKS = 2048
      ∧ (∀ e, discovery = Except.error e →
          (prepare_and_upload profile stamp bundle_dir discovery).num_tasks
              = FALLBACK_ARRAY_TASKS
            ∧ (prepare_and_upload profile stamp bundle_dir discovery).upload_warnings
              = ["Local input discovery failed: " ++ e, fallbackWarning])
      ∧ (discovery = Except.ok 0 →
          (prepare_and_upload profile stamp bundle_dir discovery).num_tasks
              = FALLBACK_ARRAY_TASKS
            ∧ (prepare_and_upload profile stamp bundle_dir discovery).upload_warnings
              = ["Local input discovery found 0 files.", fallbackWarning])
      ∧ (∀ n, discovery = Except.ok n → 1 ≤ n →
          (prepare_and_upload profile stamp bundle_dir discovery).num_tasks = n
            ∧ (prepare_and_upload profile stamp bundle_dir discovery).upload_warnings
              = []) := by
  cases discovery with
  | error e =>
    refine ⟨?_, rfl, ?_, ?_, ?_⟩
    · simp [prepare_and_upload, discoveryPlan, FALLBACK_ARRAY_TASKS]
    · intro e' he
      cases he
      constructor
      · simp [prepare_and_upload, discoveryPlan]
      · simp [prepare_and_upload, discoveryPlan]
    · intro h; cases h
    · intro n h; cases h
  | ok n =>
    rcases Nat.eq_zero_or_pos n with rfl | hpos
    · refine ⟨?_, rfl, ?_, ?_, ?_⟩
      · simp [prepare_and_upload, discoveryPlan, FALLBACK_ARRAY_TASKS]
      · intro e he; cases he
      · intro _
        constructor
        · simp [prepare_and_upload, discoveryPlan]
        · simp [prepare_and_upload, discoveryPlan]
      · intro n' h hn'
        cases h
        omega
    · refine ⟨?_, rfl, ?_, ?_, ?_⟩
      · simpa [prepare_and_upload, discoveryPlan, Nat.not_lt_of_le hpos] using hpos
      · intro e he; cases he
      · intro h
        cases h
        omega
      · intro n' h hn'
        cases h
        constructor
        · simp [prepare_and_upload, discoveryPlan, Nat.not_lt_of_le hpos]
        · simp [prepare_and_upload, discoveryPlan, Nat.not_lt_of_le hpos]

/-- Witness for prepare_and_upload_discovery_fallback: a failing discovery. -/
theorem prepare_and_upload_discovery_fallback_witness :
    (prepare_and_upload {} "20240101_000000" "/tmp/bundle"
        (Except.error "boom")).num_tasks = 2048 := by
  have h := prepare_and_upload_discovery_fallback {} "20240101_000000" "/tmp/bundle"
    (Except.error "boom")
  exact (h.2.2.1 "boom" rfl).1.trans h.2.1

/-- A parsed job id is a nonempty string. -/
theorem findJobId_some_ne_empty {l : List Char} {id : String}
    (h : findJobId l = some id) : id ≠ "" := by
  induction l with
  | nil => simp [findJobId] at h
  | cons c t ih =>
    rw [findJobId] at h
    by_cases hpre : List.isPrefixOf jobIdLit (c :: t) = true
    · rw [if_pos hpre] at h
      by_cases hds : (takeDigits ((c :: t).drop jobIdLit.length)).isEmpty = true
      · rw [if_pos hds] at h; exact ih h
      · rw [if_neg hds] at h
        simp only [Option.some.injEq] at h
        subst h
        intro hcon
        have : takeDigits ((c :: t).drop jobIdLit.length) = [] :=
          congrArg String.data hcon
        simp [this] at hds
    · rw [if_neg hpre] at h; exact ih h

theorem parse_job_id_some_ne_empty {out id : String}
    (h : parse_job_id out = some id) : id ≠ "" :=
  findJobId_some_ne_empty h

/-- Claim C5: submit fails with the not-staged error before issuing any
remote command when the run state has no remote run directory; with a staged
state it fails with the unparseable-submission error when a scheduler
submission output lacks the job-id pattern; and on success it returns both
job ids and the run state updated with both, the second submission command
carrying an explicit afterok dependency on the first id. -/
theorem submit_spec (exec : List String → String) (profile : RemoteProfile)
    (st : RemoteRunState) :
    (st.remote_run_dir = none →
        submit exec profile st = ([], Except.error SubmitError.notStaged))
      ∧ (∀ d, st.remote_run_dir = some d → d ≠ "" →
          (parse_job_id (exec (ssh_argv profile.host_alias (submitRemote1 d))) = none →
              submit exec profile st
                = ([ssh_argv profile.host_alias (submitRemote1 d)],
                   Except.error (SubmitError.unparseable
                     (exec (ssh_argv profile.host_alias (submitRemote1 d))))))
          ∧ ∀ id1, parse_job_id (exec (ssh_argv profile.host_alias (submitRemote1 d)))
                = some id1 →
              ∀ bundle, st.local_bundle_dir = some bundle →
                ((parse_job_id (exec (ssh_argv profile.host_alias
                      (submitRemote2 d id1))) = none →
                    submit exec profile st
                      = ([ssh_argv profile.host_alias (submitRemote1 d),
                          stage23RsyncArgv profile bundle d,
                          ssh_argv profile.host_alias (submitRemote2 d id1)],
                         Except.error (SubmitError.unparseable
                           (exec (ssh_argv profile.host_alias (submitRemote2 d id1))))))
                 ∧ ∀ id2, parse_job_id (exec (ssh_argv profile.host_alias
                       (submitRemote2 d id1))) = some id2 →
                     submit exec profile st
                         = ([ssh_argv profile.host_alias (submitRemote1 d),
                             stage23RsyncArgv profile bundle d,
                             ssh_argv profile.host_alias (submitRemote2 d id1)],
                            Except.ok (id1, id2,
                              { st with
                                  stage1_job_id := some id1
                                  stage23_job_id := some id2 }))
                       ∧ strContains (submitRemote2 d id1)
                           ("--dependency=afterok:" ++ id1) = true)) := by
  refine ⟨?_, ?_⟩
  · intro h
    simp [submit, h]
  · intro d hd hne
    constructor
    · intro hp1
      simp [submit, hd, hne, hp1]
    · intro id1 hp1 bundle hb
      constructor
      · intro hp2
        simp [submit, hd, hne, hp1, hb, hp2]
      · intro id2 hp2
        constructor
        · simp [submit, hd, hne, hp1, hb, hp2]
        · have hlit : (" && sbatch --dependency=afterok:" : String).data
              = (" && sbatch " : String).data
                  ++ ("--dependency=afterok:" : String).data := by decide
          apply @strContains_of_eq (submitRemote2 d id1)
            ("cd " ++ shlexQuote d ++ " && sbatch ")
            ("--dependency=afterok:" ++ id1) (" stage23.sbatch")
          apply String.ext
          simp only [submitRemote2, String.data_append, hlit, List.append_assoc]
          simp

/-- Witness for submit_spec: a staged state with a constant scheduler reply. -/
theorem submit_spec_witness :
    submit (fun _ => "Submitted batch job 42") {}
        { freshRunState with
            remote_run_dir := some "/r/run"
            local_bundle_dir := some "/tmp/b" }
      = ([ssh_argv "deigo" (submitRemote1 "/r/run"),
          stage23RsyncArgv {} "/tmp/b" "/r/run",
          ssh_argv "deigo" (submitRemote2 "/r/run" "42")],
         Except.ok ("42", "42",
           { freshRunState with
               remote_run_dir := some "/r/run"
               local_bundle_dir := some "/tmp/b"
               stage1_job_id := some "42"
               stage23_job_id := some "42" })) := by
  have h := submit_spec (fun _ => "Submitted batch job 42") {}
    { freshRunState with
        remote_run_dir := some "/r/run"
        local_bundle_dir := some "/tmp/b" }
  exact ((((h.2 "/r/run" rfl (by decide)).2 "42" (by decide) "/tmp/b" rfl).2 "42"
    (by decide)).1)

/-- A successful submit records both parsed (hence nonempty) job ids. -/
theorem submit_ok_state {exec : List String → String} {profile : RemoteProfile}
    {st : RemoteRunState} {log : List (List String)} {id1 id2 : String}
    {st' : RemoteRunState}
    (hs : submit exec profile st = (log, Except.ok (id1, id2, st'))) :
    st'.stage1_job_id = some id1 ∧ st'.stage23_job_id = some id2
      ∧ id1 ≠ "" ∧ id2 ≠ "" := by
  rcases h1 : st.remote_run_dir with _ | d
  · have hc : submit exec profile st = ([], Except.error SubmitError.notStaged) := by
      simp [submit, h1]
    rw [hc] at hs; simp at hs
  · by_cases h2 : d = ""
    · have hc : submit exec profile st = ([], Except.error SubmitError.notStaged) := by
        simp [submit, h1, h2]
      rw [hc] at hs; simp at hs
    · rcases h3 : parse_job_id (exec (ssh_argv profile.host_alias (submitRemote1 d)))
        with _ | jid1
      · have hc : submit exec profile st
            = ([ssh_argv profile.host_alias (submitRemote1 d)],
               Except.error (SubmitError.unparseable
                 (exec (ssh_argv profile.host_alias (submitRemote1 d))))) := by
          simp [submit, h1, h2, h3]
        rw [hc] at hs; simp at hs
      · rcases h4 : st.local_bundle_dir with _ | bundle
        · have hc : submit exec profile st
              = ([ssh_argv profile.host_alias (submitRemote1 d)],
                 Except.error SubmitError.missingBundle) := by
            simp [submit, h1, h2, h3, h4]
          rw [hc] at hs; simp at hs
        · rcases h5 : parse_job_id (exec (ssh_argv profile.host_alias
              (submitRemote2 d jid1))) with _ | jid2
          · have hc : submit exec profile st
                = ([ssh_argv profile.host_alias (submitRemote1 d),
                    stage23RsyncArgv profile bundle d,
                    ssh_argv profile.host_alias (submitRemote2 d jid1)],
                   Except.error (SubmitError.unparseable
                     (exec (ssh_argv profile.host_alias (submitRemote2 d jid1))))) := by
              simp [submit, h1, h2, h3, h4, h5]
            rw [hc] at hs; simp at hs
          · have hc : submit exec profile st
                = ([ssh_argv profile.host_alias (submitRemote1 d),
                    stage23RsyncArgv profile bundle d,
                    ssh_argv profile.host_alias (submitRemote2 d jid1)],
                   Except.ok (jid1, jid2,
                     { st with
                         stage1_job_id := some jid1
                         stage23_job_id := some jid2 })) := by
              simp [submit, h1, h2, h3, h4, h5]
            rw [hc] at hs
            have hinj : jid1 = id1 ∧ jid2 = id2
                ∧ ({ st with
                      stage1_job_id := some jid1
                      stage23_job_id := some jid2 } : RemoteRunState) = st' := by
              have h' := hs
              simp only [Prod.mk.injEq, Except.ok.injEq] at h'
              exact ⟨h'.2.1, h'.2.2.1, h'.2.2.2⟩
            rcases hinj with ⟨rfl, rfl, hst⟩
            refine ⟨?_, ?_, findJobId_some_ne_empty h3, findJobId_some_ne_empty h5⟩
            · rw [← hst]
            · rw [← hst]

/-- Every reachable run state has either no job id or both, and recorded ids
are nonempty. -/
theorem reachable_ids_cases {st : RemoteRunState} (h : ReachableState st) :
    (st.stage1_job_id = none ∧ st.stage23_job_id = none)
      ∨ (∃ a b, st.stage1_job_id = some a ∧ st.stage23_job_id = some b
          ∧ a ≠ "" ∧ b ≠ "") := by
  induction h with
  | fresh => exact Or.inl ⟨rfl, rfl⟩
  | uploaded profile stamp bundle_dir discovery => exact Or.inl ⟨rfl, rfl⟩
  | submitted exec profile st log id1 id2 st' h hs ih =>
    rcases submit_ok_state hs with ⟨h1, h2, hne1, hne2⟩
    exact Or.inr ⟨id1, id2, h1, h2, hne1, hne2⟩

/-- Claim C7: on every run state reachable through the orchestrator's
operations, stage23_job_id is recorded only together with stage1_job_id, and
job_ids returns exactly the recorded subset in submission order: empty with
no Stage-1 id, the single Stage-1 id when only it is recorded, and both ids
in order when both are. -/
theorem reachable_job_ids (st : RemoteRunState) (h : ReachableState st) :
    (st.stage23_job_id.isSome = true → st.stage1_job_id.isSome = true)
      ∧ (st.stage1_job_id = none → st.job_ids = [])
      ∧ (∀ a, st.stage1_job_id = some a → st.stage23_job_id = none →
          st.job_ids = [a])
      ∧ (∀ a b, st.stage1_job_id = some a → st.stage23_job_id = some b →
          st.job_ids = [a, b]) := by
  rcases reachable_ids_cases h with ⟨h1, h2⟩ | ⟨a, b, ha, hb, hane, hbne⟩
  · refine ⟨?_, ?_, ?_, ?_⟩
    · intro hcon; rw [h2] at hcon; cases hcon
    · intro _; simp [RemoteRunState.job_ids, optId, h1, h2]
    · intro a ha; rw [h1] at ha; cases ha
    · intro a b ha; rw [h1] at ha; cases ha
  · refine ⟨?_, ?_, ?_, ?_⟩
    · intro _; rw [ha]; rfl
    · intro hcon; rw [ha] at hcon; cases hcon
    · intro a' ha' hcon; rw [hb] at hcon; cases hcon
    · intro a' b' ha' hb'
      rw [ha] at ha'; rw [hb] at hb'
      cases ha'; cases hb'
      simp [RemoteRunState.job_ids, optId, ha, hb, hane, hbne]

/-- Witness for reachable_job_ids at the fresh state. -/
theorem reachable_job_ids_witness : freshRunState.job_ids = [] :=
  (reachable_job_ids freshRunState ReachableState.fresh).2.1 rfl

/-! ## Order lemmas for the listing sort -/

theorem char_eq_of_toNat {a b : Char} (h : a.toNat = b.toNat) : a = b := by
  apply Char.ext
  apply UInt32.ext
  simpa [Char.toNat, UInt32.toNat] using h

theorem lexLe_total : ∀ a b : List Char, lexLe a b = true ∨ lexLe b a = true := by
  intro a
  induction a with
  | nil => intro b; exact Or.inl rfl
  | cons x xs ih =>
    intro b
    cases b with
    | nil => exact Or.inr rfl
    | cons y ys =>
      by_cases hxy : x.toNat < y.toNat
      · left; simp [lexLe, hxy]
      · by_cases hyx : y.toNat < x.toNat
        · right; simp [lexLe, hyx]
        · rcases ih ys with h | h
          · left; simp [lexLe, hxy, hyx, h]
          · right; simp [lexLe, hxy, hyx, h]

theorem lexLe_trans : ∀ a b c : List Char,
    lexLe a b = true → lexLe b c = true → lexLe a c = true := by
  intro a
  induction a with
  | nil => intro b c _ _; rfl
  | cons x xs ih =>
    intro b c hab hbc
    cases b with
    | nil => simp [lexLe] at hab
    | cons y ys =>
      cases c with
      | nil => simp [lexLe] at hbc
      | cons z zs =>
        by_cases hxy : x.toNat < y.toNat
        · by_cases hyz : y.toNat < z.toNat
          · simp [lexLe, Nat.lt_trans hxy hyz]
          · by_cases hzy : z.toNat < y.toNat
            · simp [lexLe, hyz, hzy] at hbc
            · have : y.toNat = z.toNat := Nat.le_antisymm
                (Nat.le_of_not_lt hzy) (Nat.le_of_not_lt hyz)
              simp [lexLe, this ▸ hxy]
        · by_cases hyx : y.toNat < x.toNat
          · simp [lexLe, hxy, hyx] at hab
          · have hxyeq : x.toNat = y.toNat := Nat.le_antisymm
              (Nat.le_of_not_lt hyx) (Nat.le_of_not_lt hxy)
            simp only [lexLe, if_neg hxy, if_neg hyx] at hab
            by_cases hyz : y.toNat < z.toNat
            · simp [lexLe, hxyeq ▸ hyz]
            · by_cases hzy : z.toNat < y.toNat
              · simp [lexLe, hyz, hzy] at hbc
              · simp only [lexLe, if_neg hyz, if_neg hzy] at hbc
                have hxz : ¬ x.toNat < z.toNat := by omega
                have hzx : ¬ z.toNat < x.toNat := by omega
                simp only [lexLe, if_neg hxz, if_neg hzx]
                exact ih ys zs hab hbc

theorem lexLe_antisymm : ∀ a b : List Char,
    lexLe a b = true → lexLe b a = true → a = b := by
  intro a
  induction a with
  | nil =>
    intro b _ hba
    cases b with
    | nil => rfl
    | cons y ys => simp [lexLe] at hba
  | cons x xs ih =>
    intro b hab hba
    cases b with
    | nil => simp [lexLe] at hab
    | cons y ys =>
      by_cases hxy : x.toNat < y.toNat
      · exfalso
        have hfalse : lexLe (y :: ys) (x :: xs) = false := by
          simp [lexLe, hxy, show ¬ y.toNat < x.toNat by omega]
        rw [hfalse] at hba
        cases hba
      · by_cases hyx : y.toNat < x.toNat
        · simp [lexLe, hxy, hyx] at hab
        · simp only [lexLe, if_neg hxy, if_neg hyx] at hab
          simp only [lexLe, if_neg hyx, if_neg hxy] at hba
          have hchar : x = y := char_eq_of_toNat (by omega)
          rw [hchar, ih ys hab hba]

instance : IsTotal String strLe :=
  ⟨fun a b => by
    unfold strLe strLeb
    rcases lexLe_total a.data b.data with h | h
    · exact Or.inl h
    · exact Or.inr h⟩

instance : IsTrans String strLe :=
  ⟨fun a b c hab hbc => lexLe_trans a.data b.data c.data hab hbc⟩

instance : IsAntisymm String strLe :=
  ⟨fun a b hab hba => String.ext (lexLe_antisymm a.data b.data hab hba)⟩

/-- sortDedup depends only on the membership set of its input. -/
theorem sortDedup_ext {c1 c2 : List String} (h : ∀ x, x ∈ c1 ↔ x ∈ c2) :
    sortDedup c1 = sortDedup c2 := by
  apply List.eq_of_perm_of_sorted _ (List.sorted_insertionSort strLe _)
    (List.sorted_insertionSort strLe _)
  have hmid : c1.dedup.Perm c2.dedup := by
    rw [List.perm_ext_iff_of_nodup (List.nodup_dedup c1) (List.nodup_dedup c2)]
    intro a
    rw [List.mem_dedup, List.mem_dedup]
    exact h a
  exact ((List.perm_insertionSort strLe c1.dedup).trans hmid).trans
    (List.perm_insertionSort strLe c2.dedup).symm

/-- The base path tracked by the listing loop: the payload of the last base
sentinel line overrides the accumulator. -/
def baseUpd : String → List String → String
  | b, [] => b
  | b, l :: t =>
    let text := pythonStrip l
    if text = "" then baseUpd b t
    else if startsWith text "__BASE__:" then baseUpd ⟨text.data.drop 9⟩ t
    else if startsWith text "__WARN_NOT_DIR__:" then baseUpd b t
    else baseUpd b t

theorem listingFold_pair : ∀ (lines : List String) (b : String) (cs : List String),
    lines.foldl listingStep (b, cs) = (baseUpd b lines, cs ++ listingKids lines) := by
  intro lines
  induction lines with
  | nil => intro b cs; simp [baseUpd, listingKids]
  | cons l t ih =>
    intro b cs
    rw [List.foldl_cons]
    by_cases h1 : pythonStrip l = ""
    · rw [show listingStep (b, cs) l = (b, cs) from by simp [listingStep, h1]]
      rw [ih b cs]
      simp [baseUpd, listingKids, h1]
    · by_cases h2 : startsWith (pythonStrip l) "__BASE__:" = true
      · rw [show listingStep (b, cs) l = (⟨(pythonStrip l).data.drop 9⟩, cs) from by
          simp [listingStep, h1, h2]]
        rw [ih _ cs]
        simp [baseUpd, listingKids, h1, h2]
      · by_cases h3 : startsWith (pythonStrip l) "__WARN_NOT_DIR__:" = true
        · rw [show listingStep (b, cs) l = (b, cs) from by simp [listingStep, h1, h2, h3]]
          rw [ih b cs]
          simp [baseUpd, listingKids, h1, h2, h3]
        · rw [show listingStep (b, cs) l = (b, cs ++ [pythonStrip l]) from by
            simp [listingStep, h1, h2, h3]]
          rw [ih b (cs ++ [pythonStrip l])]
          simp [baseUpd, listingKids, h1, h2, h3]

/-- parse_directory_listing in terms of the final base and the child lines. -/
theorem parse_directory_listing_eq (output : String) :
    parse_directory_listing output =
      if baseUpd "" (splitLines output) = "" then
        Except.error ("Could not parse remote directory listing output:\n" ++ output)
      else
        Except.ok { path := baseUpd "" (splitLines output)
                    children := sortDedup (listingKids (splitLines output)) } := by
  unfold parse_directory_listing
  rw [listingFold_pair]
  simp

theorem baseUpd_no_sentinel : ∀ (lines : List String) (b : String),
    (∀ l ∈ lines, startsWith (pythonStrip l) "__BASE__:" = false) →
    baseUpd b lines = b := by
  intro lines
  induction lines with
  | nil => intro b _; rfl
  | cons l t ih =>
    intro b h
    have hl := h l (List.mem_cons_self l t)
    have ht : ∀ l' ∈ t, startsWith (pythonStrip l') "__BASE__:" = false :=
      fun l' hl' => h l' (List.mem_cons_of_mem l hl')
    by_cases h1 : pythonStrip l = ""
    · simp only [baseUpd, if_pos h1]
      exact ih b ht
    · simp only [baseUpd, if_neg h1, hl, Bool.false_eq_true, if_false]
      by_cases h3 : startsWith (pythonStrip l) "__WARN_NOT_DIR__:" = true
      · rw [if_pos h3]; exact ih b ht
      · rw [if_neg h3]; exact ih b ht

theorem baseUpd_cases : ∀ (lines : List String) (b : String),
    baseUpd b lines = b
      ∨ ∃ l ∈ lines, startsWith (pythonStrip l) "__BASE__:" = true
          ∧ String.mk ((pythonStrip l).data.drop 9) = baseUpd b lines := by
  intro lines
  induction lines with
  | nil => intro b; exact Or.inl rfl
  | cons l t ih =>
    intro b
    by_cases h1 : pythonStrip l = ""
    · rw [show baseUpd b (l :: t) = baseUpd b t from by simp [baseUpd, h1]]
      rcases ih b with h | ⟨l', hl', hs, hp⟩
      · exact Or.inl h
      · exact Or.inr ⟨l', List.mem_cons_of_mem l hl', hs, hp⟩
    · by_cases h2 : startsWith (pythonStrip l) "__BASE__:" = true
      · rw [show baseUpd b (l :: t) = baseUpd ⟨(pythonStrip l).data.drop 9⟩ t from by
          simp [baseUpd, h1, h2]]
        rcases ih ⟨(pythonStrip l).data.drop 9⟩ with h | ⟨l', hl', hs, hp⟩
        · exact Or.inr ⟨l, List.mem_cons_self l t, h2, h.symm⟩
        · exact Or.inr ⟨l', List.mem_cons_of_mem l hl', hs, hp⟩
      · by_cases h3 : startsWith (pythonStrip l) "__WARN_NOT_DIR__:" = true
        · rw [show baseUpd b (l :: t) = baseUpd b t from by simp [baseUpd, h1, h2, h3]]
          rcases ih b with h | ⟨l', hl', hs, hp⟩
          · exact Or.inl h
          · exact Or.inr ⟨l', List.mem_cons_of_mem l hl', hs, hp⟩
        · rw [show baseUpd b (l :: t) = baseUpd b t from by simp [baseUpd, h1, h2, h3]]
          rcases ih b with h | ⟨l', hl', hs, hp⟩
          · exact Or.inl h
          · exact Or.inr ⟨l', List.mem_cons_of_mem l hl', hs, hp⟩

/-- Claim C8, amended. Parsing succeeds exactly when the base value left by
the loop — the payload of the last sentinel line — is nonempty; then the
path is that sentinel payload and the children are the deduplicated,
lexicographically sorted set of the remaining nonempty non-sentinel lines,
the same result for any reordering or duplication of the input lines that
preserves the final base value (with a single sentinel line, any reordering
or duplication); input child lines a, a, b yield children [a, b]. When no
sentinel line is present — or, the amendment, when the last sentinel line
carries an empty payload — parsing fails with the structural error. -/
theorem parse_directory_listing_spec (output : String) :
    (baseUpd "" (splitLines output) ≠ "" →
        parse_directory_listing output
            = Except.ok { path := baseUpd "" (splitLines output)
                          children := sortDedup (listingKids (splitLines output)) }
          ∧ ∃ l ∈ splitLines output,
              startsWith (pythonStrip l) "__BASE__:" = true
                ∧ String.mk ((pythonStrip l).data.drop 9)
                    = baseUpd "" (splitLines output))
      ∧ (baseUpd "" (splitLines output) = "" →
          parse_directory_listing output
            = Except.error ("Could not parse remote directory listing output:\n"
                ++ output))
      ∧ ((∀ l ∈ splitLines output, startsWith (pythonStrip l) "__BASE__:" = false) →
          parse_directory_listing output
            = Except.error ("Could not parse remote directory listing output:\n"
                ++ output))
      ∧ (∀ output2, baseUpd "" (splitLines output2) = baseUpd "" (splitLines output) →
          baseUpd "" (splitLines output) ≠ "" →
          (∀ x, x ∈ listingKids (splitLines output2)
              ↔ x ∈ listingKids (splitLines output)) →
          parse_directory_listing output2 = parse_directory_listing output)
      ∧ parse_directory_listing "__BASE__:/base\nb\na\na"
          = Except.ok { path := "/base", children := ["a", "b"] } := by
  refine ⟨?_, ?_, ?_, ?_, ?_⟩
  · intro hne
    constructor
    · rw [parse_directory_listing_eq, if_neg hne]
    · rcases baseUpd_cases (splitLines output) "" with h | h
      · exact absurd h hne
      · exact h
  · intro hz
    rw [parse_directory_listing_eq, if_pos hz]
  · intro hno
    rw [parse_directory_listing_eq, if_pos (baseUpd_no_sentinel (splitLines output) "" hno)]
  · intro output2 hbase hne hkids
    rw [parse_directory_listing_eq, parse_directory_listing_eq output,
      if_neg (hbase.symm ▸ hne), if_neg hne, hbase, sortDedup_ext hkids]
  · rfl

/-- Claim C8, counterexample to the original claim: the output consists of a
line beginning with the base sentinel (with empty payload) and a child line,
yet parsing fails instead of returning a listing. -/
theorem parse_directory_listing_cex :
    ("__BASE__:" ∈ splitLines "__BASE__:\na"
        ∧ startsWith (pythonStrip "__BASE__:") "__BASE__:" = true)
      ∧ parse_directory_listing "__BASE__:\na"
          = Except.error "Could not parse remote directory listing output:\n__BASE__:\na" := by
  exact ⟨⟨by decide, by decide⟩, rfl⟩

/-- Witness for parse_directory_listing_spec on a concrete listing. -/
theorem parse_directory_listing_spec_witness :
    parse_directory_listing "__BASE__:/home/test\n/home/test/a"
      = Except.ok { path := "/home/test", children := ["/home/test/a"] } := by
  have h := (parse_directory_listing_spec "__BASE__:/home/test\n/home/test/a").1
    (by decide)
  rw [h.1]
  rfl

/-! ## First-seen deduplication lemmas for the shallow listing -/

theorem mem_dedupFS : ∀ (l : List String) (a : String), a ∈ dedupFS l ↔ a ∈ l := by
  intro l
  induction l using dedupFS.induct with
  | case1 => intro a; rw [dedupFS]
  | case2 x t ih =>
    intro a
    rw [dedupFS]
    simp only [List.mem_cons, ih]
    constructor
    · rintro (rfl | h)
      · exact Or.inl rfl
      · exact Or.inr (List.mem_filter.mp h).1
    · rintro (rfl | h)
      · exact Or.inl rfl
      · by_cases hax : a = x
        · exact Or.inl hax
        · exact Or.inr (List.mem_filter.mpr ⟨h, by simpa using hax⟩)

theorem nodup_dedupFS : ∀ l : List String, (dedupFS l).Nodup := by
  intro l
  induction l using dedupFS.induct with
  | case1 => rw [dedupFS]; exact List.nodup_nil
  | case2 x t ih =>
    rw [dedupFS]
    refine List.Nodup.cons ?_ ih
    intro hx
    have := (List.mem_filter.mp ((mem_dedupFS _ x).mp hx)).2
    simp at this

theorem dedupFold_eq : ∀ (l acc : List String),
    l.foldl (fun dirs v => if v = "" ∨ v ∈ dirs then dirs else dirs ++ [v]) acc
      = acc ++ dedupFS ((l.filter (fun v => v ≠ "")).filter (fun v => v ∉ acc)) := by
  intro l
  induction l with
  | nil => intro acc; simp [dedupFS]
  | cons v t ih =>
    intro acc
    rw [List.foldl_cons]
    by_cases h1 : v = ""
    · rw [if_pos (Or.inl h1), ih acc]
      simp [List.filter_cons, h1]
    · by_cases h2 : v ∈ acc
      · rw [if_pos (Or.inr h2), ih acc]
        simp [List.filter_cons, h1, h2]
      · rw [if_neg (by simp [h1, h2]), ih (acc ++ [v])]
        have hfilters : (t.filter (fun u => u ≠ "")).filter (fun u => u ∉ acc ++ [v])
            = ((t.filter (fun u => u ≠ "")).filter (fun u => u ∉ acc)).filter
                (fun u => u ≠ v) := by
          simp only [List.filter_filter]
          apply List.filter_congr
          intro u _
          by_cases hv : u = v <;> by_cases he : u = "" <;> by_cases ha : u ∈ acc <;>
            simp [hv, he, ha, List.mem_append]
        rw [hfilters]
        have hcons : dedupFS (v :: ((t.filter (fun u => u ≠ "")).filter
              (fun u => u ∉ acc)))
            = v :: dedupFS (((t.filter (fun u => u ≠ "")).filter
                (fun u => u ∉ acc)).filter (fun u => u ≠ v)) := by
          rw [dedupFS]
        rw [show (v :: t).filter (fun u => u ≠ "") = v :: t.filter (fun u => u ≠ "")
            from by simp [List.filter_cons, h1]]
        rw [show (v :: t.filter (fun u => u ≠ "")).filter (fun u => u ∉ acc)
              = v :: (t.filter (fun u => u ≠ "")).filter (fun u => u ∉ acc)
            from by simp [List.filter_cons, h2]]
        rw [hcons]
        simp [List.append_assoc]

/-- The client-side result of list_remote_directories is the first-seen
deduplication of the stripped nonempty output lines. -/
theorem shallowParse_eq (output : String) :
    shallowParse output
      = dedupFS (((splitLines output).map pythonStrip).filter (fun v => v ≠ "")) := by
  unfold shallowParse
  have hmap := List.foldl_map pythonStrip
    (fun dirs v => if v = "" ∨ v ∈ dirs then dirs else dirs ++ [v])
    (splitLines output) ([] : List String)
  rw [← hmap, dedupFold_eq]
  simp

/-- Claim C9, amended. For every profile, start directory, depth, limit and
remote output, the returned list is the deduplicated, first-seen-order list
of the stripped nonempty output lines (in particular it has no duplicates),
and the cap at limit lives in the issued remote command, whose pipeline ends
with head -n max(1, limit); the client side enforces no cap, so outputs with
more distinct lines than limit produce longer lists (see the
counterexample). -/
theorem list_remote_directories_spec (profile : RemoteProfile)
    (start_dir : Option String) (max_depth limit : Nat) (output : String) :
    (list_remote_directories profile start_dir max_depth limit output).2
        = dedupFS (((splitLines output).map pythonStrip).filter (fun v => v ≠ ""))
      ∧ (list_remote_directories profile start_dir max_depth limit output).2.Nodup
      ∧ strContains (list_remote_directories profile start_dir max_depth limit output).1
          ("| sort | head -n " ++ toString (max 1 limit)) = true := by
  refine ⟨shallowParse_eq output, ?_, ?_⟩
  · rw [show (list_remote_directories profile start_dir max_depth limit output).2
        = shallowParse output from rfl, shallowParse_eq]
    exact nodup_dedupFS _
  · apply @strContains_of_eq
      (list_remote_directories profile start_dir max_depth limit output).1
      ("base=" ++ shlexQuote (shallowRequested profile start_dir) ++ "; "
        ++ "case \"$base\" in \"~\") base=\"$HOME\" ;; \"~/\"*) base=\"$HOME/$\x7bbase#??\x7d\" ;; esac; "
        ++ "mkdir -p \"$base\" >/dev/null 2>&1 || true; "
        ++ "printf \"%s\\\\n\" \"$base\"; "
        ++ "find \"$base\" -mindepth 1 -maxdepth " ++ toString (max 1 max_depth)
        ++ " -type d 2>/dev/null ")
      ("| sort | head -n " ++ toString (max 1 limit)) ""
    apply String.ext
    simp [list_remote_directories, shallowRemoteCommand, String.data_append,
      List.append_assoc]

/-- Claim C9, counterexample to the original claim: with limit 1, a remote
output of two distinct lines yields a returned list of two entries, because
the limit is enforced only inside the remote command. -/
theorem list_remote_directories_limit_cex :
    (list_remote_directories {} none 2 1 "a\nb").2 = ["a", "b"]
      ∧ ¬ ((list_remote_directories {} none 2 1 "a\nb").2.length ≤ 1) := by
  constructor
  · decide
  · decide

/-! ## Lemmas about the SSH failure message -/

theorem joinLines_cons₂ (x y : String) (xs : List String) :
    joinLines (x :: y :: xs) = x ++ "\n" ++ joinLines (y :: xs) := rfl

/-- A pattern contained in some line is contained in the joined text. -/
theorem joinLines_mem_contains : ∀ (lines : List String) (x pat : String),
    x ∈ lines → strContains x pat = true → strContains (joinLines lines) pat = true := by
  intro lines
  induction lines with
  | nil => intro x pat hx _; cases hx
  | cons y ys ih =>
    intro x pat hx hpat
    rcases List.mem_cons.mp hx with rfl | hmem
    · cases ys with
      | nil => exact hpat
      | cons z zs =>
        rw [joinLines_cons₂]
        exact strContains_append_left _ (strContains_append_left _ hpat)
    · cases ys with
      | nil => cases hmem
      | cons z zs =>
        rw [joinLines_cons₂]
        exact strContains_append_right _ (ih x pat hmem hpat)

theorem data_head?_append {s t : String} {x : Char} (h : s.data.head? = some x) :
    (s ++ t).data.head? = some x := by
  rw [String.data_append, List.head?_append, h]
  rfl

theorem data_getLast?_append {s t : String} {x : Char} (h : t.data.getLast? = some x) :
    (s ++ t).data.getLast? = some x := by
  rw [String.data_append, List.getLast?_append, h]
  rfl

theorem hint_head (host err : String) :
    (joinLines (ssh_hint_lines host err)).data.head? = some 'S' :=
  data_head?_append (data_head?_append (by decide))

theorem hint_last (host err : String) :
    (joinLines (ssh_hint_lines host err)).data.getLast? = some '"' := by
  cases hb : strContains err "Host key verification failed"
  · have hshape : ssh_hint_lines host err
        = ["SSH interactive prompts are disabled in the GUI (BatchMode=yes).",
           "",
           "Run one of these once in a terminal, then retry from the GUI:",
           "1) Accept key + test login: ssh -o StrictHostKeyChecking=accept-new "
             ++ host ++ " \"echo connected\""] := by
      simp [ssh_hint_lines, sshHintBase, hb]
    rw [hshape]
    exact data_getLast?_append (data_getLast?_append (data_getLast?_append
      (data_getLast?_append (by decide))))
  · have hshape : ssh_hint_lines host err
        = ["SSH interactive prompts are disabled in the GUI (BatchMode=yes).",
           "",
           "Run one of these once in a terminal, then retry from the GUI:",
           "1) Accept key + test login: ssh -o StrictHostKeyChecking=accept-new "
             ++ host ++ " \"echo connected\"",
           sshKeygenHintLine host,
           sshRetryHintLine host] := by
      simp [ssh_hint_lines, sshHintBase, hb]
    rw [hshape]
    unfold sshRetryHintLine
    exact data_getLast?_append (data_getLast?_append (data_getLast?_append
      (data_getLast?_append (data_getLast?_append (data_getLast?_append (by decide))))))

theorem hint_ne (host err : String) : joinLines (ssh_hint_lines host err) ≠ "" := by
  intro hcon
  have := hint_head host err
  rw [hcon] at this
  cases this

/-- The combined error-plus-hint text is already stripped: its first and last
characters are never whitespace. -/
theorem combined_strip_id (host err e0 : String) (he : err = pythonStrip e0) :
    pythonStrip (joinLines (List.filter (fun p => p ≠ "")
        [err, joinLines (ssh_hint_lines host err)]))
      = joinLines (List.filter (fun p => p ≠ "")
          [err, joinLines (ssh_hint_lines host err)]) := by
  by_cases herr : err = ""
  · have hfil : List.filter (fun p => p ≠ "")
          [err, joinLines (ssh_hint_lines host err)]
        = [joinLines (ssh_hint_lines host err)] := by
      simp [herr, hint_ne]
    rw [hfil]
    apply pythonStrip_eq_self
    · intro c hc
      have hh : (joinLines [joinLines (ssh_hint_lines host err)]).data.head?
          = some 'S' := by
        have : joinLines [joinLines (ssh_hint_lines host err)]
            = joinLines (ssh_hint_lines host err) := rfl
        rw [this]
        exact hint_head host err
      rw [hh] at hc
      cases hc
      decide
    · intro c hc
      have hh : (joinLines [joinLines (ssh_hint_lines host err)]).data.getLast?
          = some '"' := by
        have : joinLines [joinLines (ssh_hint_lines host err)]
            = joinLines (ssh_hint_lines host err) := rfl
        rw [this]
        exact hint_last host err
      rw [hh] at hc
      cases hc
      decide
  · have hfil : List.filter (fun p => p ≠ "")
          [err, joinLines (ssh_hint_lines host err)]
        = [err, joinLines (ssh_hint_lines host err)] := by
      simp [herr, hint_ne]
    rw [hfil]
    have hjoin : joinLines [err, joinLines (ssh_hint_lines host err)]
        = err ++ "\n" ++ joinLines (ssh_hint_lines host err) := rfl
    apply pythonStrip_eq_self
    · intro c hc
      rw [hjoin] at hc
      rcases hed : err.data with _ | ⟨a, t⟩
      · exact absurd (String.ext hed) herr
      · have hh : ((err ++ "\n") ++ joinLines (ssh_hint_lines host err)).data.head?
            = some a :=
          data_head?_append (data_head?_append (by rw [hed]; rfl))
        rw [hh] at hc
        injection hc with hac
        subst hac
        have hx : err.data.head? = some a := by rw [hed]; rfl
        rw [he] at hx
        exact pythonStrip_head_not_ws hx
    · intro c hc
      rw [hjoin] at hc
      have hh : ((err ++ "\n") ++ joinLines (ssh_hint_lines host err)).data.getLast?
          = some '"' := data_getLast?_append (hint_last host err)
      rw [hh] at hc
      cases hc
      decide

/-- The SSH-authentication failure message of RemoteRunner._run, with the
trailing strip eliminated. -/
theorem runFailureMessage_ssh_eq (argv : List String) (stderr stdout : String)
    (h : argv.head? = some "ssh") :
    runFailureMessage argv 255 stderr stdout
      = "Command failed: " ++ joinSpace argv ++ "\n"
        ++ joinLines (List.filter (fun p => p ≠ "")
            [runErrOut stderr stdout,
             joinLines (ssh_hint_lines (extract_ssh_host argv)
               (runErrOut stderr stdout))]) := by
  simp only [runFailureMessage]
  rw [if_pos (⟨h, trivial⟩ : argv.head? = some "ssh" ∧ True)]
  congr 1
  exact combined_strip_id (extract_ssh_host argv) (runErrOut stderr stdout)
    (pyOr stderr stdout) rfl

theorem hint_contains_phrase (host err : String) :
    strContains (joinLines (ssh_hint_lines host err))
      "interactive prompts are disabled" = true := by
  apply joinLines_mem_contains _
    "SSH interactive prompts are disabled in the GUI (BatchMode=yes)."
  · simp [ssh_hint_lines, sshHintBase]
  · decide

theorem hint_contains_accept (host err : String) :
    strContains (joinLines (ssh_hint_lines host err))
      ("ssh -o StrictHostKeyChecking=accept-new " ++ host ++ " \"echo connected\"")
      = true := by
  apply joinLines_mem_contains _
    ("1) Accept key + test login: ssh -o StrictHostKeyChecking=accept-new "
      ++ host ++ " \"echo connected\"")
  · simp [ssh_hint_lines, sshHintBase]
  · apply @strContains_of_eq
      ("1) Accept key + test login: ssh -o StrictHostKeyChecking=accept-new "
        ++ host ++ " \"echo connected\"")
      "1) Accept key + test login: "
      ("ssh -o StrictHostKeyChecking=accept-new " ++ host ++ " \"echo connected\"") ""
    apply String.ext
    simp only [String.data_append, List.append_assoc]
    simp

theorem hint_contains_keygen (host err : String)
    (hb : strContains err "Host key verification failed" = true) :
    strContains (joinLines (ssh_hint_lines host err))
      ("ssh-keygen -R " ++ host) = true := by
  apply joinLines_mem_contains _ (sshKeygenHintLine host)
  · simp [ssh_hint_lines, hb]
  · apply @strContains_of_eq (sshKeygenHintLine host)
      "2) If key changed, clear stale key: " ("ssh-keygen -R " ++ host) ""
    apply String.ext
    simp only [sshKeygenHintLine, String.data_append, List.append_assoc]
    simp

/-- The stale-key hint line is synthesized exactly when the captured error
text reports a failed host key verification. -/
theorem keygen_mem_iff (host err : String) :
    sshKeygenHintLine host ∈ ssh_hint_lines host err
      ↔ strContains err "Host key verification failed" = true := by
  constructor
  · intro hmem
    cases hb : strContains err "Host key verification failed"
    · exfalso
      rw [show ssh_hint_lines host err = sshHintBase host from by
        simp [ssh_hint_lines, hb]] at hmem
      simp only [sshHintBase, List.mem_cons, List.not_mem_nil, or_false] at hmem
      rcases hmem with h | h | h | h
      · have := congrArg (fun s => s.data.head?) h
        simp [sshKeygenHintLine, String.data_append, List.head?_append] at this
      · have := congrArg (fun s => s.data.head?) h
        simp [sshKeygenHintLine, String.data_append, List.head?_append] at this
      · have := congrArg (fun s => s.data.head?) h
        simp [sshKeygenHintLine, String.data_append, List.head?_append] at this
      · have := congrArg (fun s => s.data.head?) h
        simp [sshKeygenHintLine, String.data_append, List.head?_append] at this
    · rfl
  · intro hb
    simp [ssh_hint_lines, hb]

theorem keygen_retry_chunk (host err : String)
    (hb : strContains err "Host key verification failed" = true) :
    isChunkOf [sshKeygenHintLine host, sshRetryHintLine host]
      (ssh_hint_lines host err) := by
  refine ⟨sshHintBase host, [], ?_⟩
  simp [ssh_hint_lines, hb]

/-- Claim C1, amended. For an argument vector whose first element is ssh
exiting with status 255, the raised message contains the joined command
line, states that interactive prompts are disabled, and contains the
one-line remediation command naming the host alias extracted from the
argument vector; when the captured error text contains the phrase of a
failed host key verification, the message additionally contains the
stale-key-clearing command followed immediately by the retry step in the
synthesized hint block — and the hint block contains the stale-key line if
and only if that phrase occurs. The only-if direction of the original claim
holds for the synthesized hint lines but not for the full message, which
also echoes the raw error text (see the counterexample). -/
theorem runFailureMessage_ssh_auth_spec (argv : List String) (stderr stdout : String)
    (h : argv.head? = some "ssh") :
    strContains (runFailureMessage argv 255 stderr stdout) (joinSpace argv) = true
      ∧ strContains (runFailureMessage argv 255 stderr stdout)
          "interactive prompts are disabled" = true
      ∧ strContains (runFailureMessage argv 255 stderr stdout)
          ("ssh -o StrictHostKeyChecking=accept-new " ++ extract_ssh_host argv
            ++ " \"echo connected\"") = true
      ∧ (strContains (runErrOut stderr stdout) "Host key verification failed" = true →
          strContains (runFailureMessage argv 255 stderr stdout)
              ("ssh-keygen -R " ++ extract_ssh_host argv) = true
            ∧ isChunkOf [sshKeygenHintLine (extract_ssh_host argv),
                  sshRetryHintLine (extract_ssh_host argv)]
                (ssh_hint_lines (extract_ssh_host argv) (runErrOut stderr stdout)))
      ∧ (sshKeygenHintLine (extract_ssh_host argv)
            ∈ ssh_hint_lines (extract_ssh_host argv) (runErrOut stderr stdout)
          ↔ strContains (runErrOut stderr stdout) "Host key verification failed"
              = true) := by
  have heq := runFailureMessage_ssh_eq argv stderr stdout h
  have hC : ∀ pat : String,
      strContains (joinLines (ssh_hint_lines (extract_ssh_host argv)
        (runErrOut stderr stdout))) pat = true →
      strContains (runFailureMessage argv 255 stderr stdout) pat = true := by
    intro pat hpat
    rw [heq]
    apply strContains_append_right
    apply joinLines_mem_contains _
      (joinLines (ssh_hint_lines (extract_ssh_host argv) (runErrOut stderr stdout)))
      pat _ hpat
    simp [List.mem_filter, hint_ne]
  refine ⟨?_, ?_, ?_, ?_, ?_⟩
  · rw [heq]
    apply strContains_append_left
    apply strContains_append_left
    apply @strContains_of_eq ("Command failed: " ++ joinSpace argv)
      "Command failed: " (joinSpace argv) ""
    apply String.ext
    simp [String.data_append]
  · exact hC _ (hint_contains_phrase _ _)
  · exact hC _ (hint_contains_accept _ _)
  · intro hb
    exact ⟨hC _ (hint_contains_keygen _ _ hb), keygen_retry_chunk _ _ hb⟩
  · exact keygen_mem_iff _ _

/-- Claim C1, counterexample to the original claim: with an error text that
itself contains a stale-key-clearing command but not the host key
verification phrase, the raised message contains the clearing command for
the actual host although the phrase is absent, refuting the only-if
direction over the full message. -/
theorem runFailureMessage_hint_iff_cex :
    strContains (runErrOut "ssh-keygen -R deigo" "")
        "Host key verification failed" = false
      ∧ strContains
          (runFailureMessage ["ssh", "-o", "BatchMode=yes", "deigo", "sh -lc true"]
            255 "ssh-keygen -R deigo" "")
          ("ssh-keygen -R "
            ++ extract_ssh_host ["ssh", "-o", "BatchMode=yes", "deigo", "sh -lc true"])
          = true := by
  exact ⟨by decide, by decide⟩

/-- Witness for runFailureMessage_ssh_auth_spec: a host key failure against
the host alias deigo. -/
theorem runFailureMessage_ssh_auth_spec_witness :
    strContains
        (runFailureMessage ["ssh", "deigo", "true"] 255
          "Host key verification failed" "")
        ("ssh-keygen -R " ++ extract_ssh_host ["ssh", "deigo", "true"]) = true := by
  have h := runFailureMessage_ssh_auth_spec ["ssh", "deigo", "true"]
    "Host key verification failed" "" rfl
  exact (h.2.2.2.1 (by decide)).1

end FlowregSession
